import Mathlib

/-!
Verification of the waterlight-node client core: the request dispatch/retry
engine (`_request` in `src/client.ts`) and the incremental SSE event decoder
(`Stream` in `src/streaming.ts`).

The dispatcher is embedded as a function over the sequence of per-attempt
outcomes (each outcome being what one `fetch` call produced: a response, or a
transport failure).  The decoder is embedded as a function over the list of
text chunks produced by the reader, with JSON parsing abstracted as a
parameter `parse`.
-/

/-! ## Error taxonomy (src/errors.ts) -/

/-- The error hierarchy of `src/errors.ts`, as a closed datatype.
`waterlight` is the base `WaterlightError` class used directly; the other
four constructors are the leaf subclasses, with the status each subclass
hard-codes left implicit in the constructor. -/
inductive WLError where
  | waterlight (msg : String) (status : Option Nat) (requestId : Option String)
  | authentication (msg : String) (requestId : Option String)
  | rateLimit (msg : String) (retryAfter : Option Rat) (requestId : Option String)
  | insufficientCredits (msg : String) (requestId : Option String)
  | apiError (msg : String) (status : Option Nat) (requestId : Option String)
deriving DecidableEq, Repr

/-! ## Response and attempt model (src/client.ts) -/

/-- The `error` field of a JSON error body, as `handleError` inspects it:
absent (or not usable), a plain string, or an object with an optional
`message` string. -/
inductive ErrorField where
  | missing
  | plainStr (s : String)
  | objMsg (m : Option String)
deriving DecidableEq, Repr

/-- The observable part of a parsed JSON response body. -/
structure JsonBody where
  errField : ErrorField
deriving DecidableEq, Repr

/-- Outcome of `res.json()`: a parsed body, or a parse failure carrying the
underlying `SyntaxError` message. -/
inductive BodyParse where
  | ok (b : JsonBody)
  | fail (emsg : String)
deriving DecidableEq, Repr

/-- One delivered HTTP response: status, the parsed `retry-after` header
(seconds; `none` when absent or empty), the `x-request-id` header, and the
body's JSON-parse outcome. -/
structure Resp where
  status : Nat
  retryAfter : Option Rat
  requestId : Option String
  body : BodyParse
deriving DecidableEq, Repr

/-- A failure that prevented completion of the `fetch` itself:
an already-typed library error thrown inside the `try`, the timeout abort
(`AbortError`), or any other transport error with its message. -/
inductive TransportErr where
  | typed (e : WLError)
  | abort
  | other (msg : String)
deriving DecidableEq, Repr

/-- What one attempt of the dispatch loop observes. -/
inductive AttemptOutcome where
  | response (r : Resp)
  | transportErr (e : TransportErr)
deriving DecidableEq, Repr

/-! ## Dispatcher (src/client.ts, `_request`) -/

/-- `RETRYABLE_STATUS = new Set([429, 500, 502, 503, 504])` (client.ts:21). -/
def RETRYABLE_STATUS : List Nat := [429, 500, 502, 503, 504]

/-- `RETRYABLE_STATUS.has(s)`. -/
def retryableStatus (s : Nat) : Bool := RETRYABLE_STATUS.contains s

/-- `res.ok`: status in the 2xx range. -/
def resOk (s : Nat) : Bool := decide (200 ≤ s ∧ s < 300)

/-- Message extraction of `handleError` (client.ts:28-29):
`(typeof errObj === 'object' ? errObj?.message : errObj) ?? 'Request failed'`. -/
def extractMsg : ErrorField → String
  | .missing => "Request failed"
  | .plainStr s => s
  | .objMsg (some m) => m
  | .objMsg none => "Request failed"

/-- `handleError` (client.ts:27-39): selects the typed error by status. -/
def handleError (status : Nat) (f : ErrorField) (retryAfter : Option Rat)
    (requestId : Option String) : WLError :=
  let msg := extractMsg f
  if status = 401 then .authentication msg requestId
  else if status = 429 then .rateLimit msg retryAfter requestId
  else if status = 402 then .insufficientCredits msg requestId
  else .apiError msg (some status) requestId

/-- The `catch` clause of `_request` (client.ts:226-231): typed errors are
rethrown unchanged, the timeout abort becomes a 408 API error, anything else
becomes a status-0 API error embedding the transport message. -/
def wrapTransport : TransportErr → WLError
  | .typed e => e
  | .abort => .apiError "Request timed out" (some 408) none
  | .other m => .apiError ("Network error: " ++ m) (some 0) none

/-- Retry delay (client.ts:216-217):
`retryAfter ? parseFloat(retryAfter) * 1000 : 500 * 2 ** attempt`. -/
def computeDelay (retryAfter : Option Rat) (attempt : Nat) : Rat :=
  match retryAfter with
  | some q => q * 1000
  | none => 500 * 2 ^ attempt

/-- The error field `handleError` sees: `res.json().catch(() => ({}))`
(client.ts:222) — a parse failure yields an empty object, whose `error`
field is absent. -/
def errFieldOf : BodyParse → ErrorField
  | .ok b => b.errField
  | .fail _ => .missing

/-- Result of one logical dispatch call: a parsed JSON value, a raised typed
error, or `incomplete` when the supplied outcome list was shorter than the
number of attempts the loop would make. -/
inductive DispatchResult where
  | ok (b : JsonBody)
  | err (e : WLError)
  | incomplete
deriving DecidableEq, Repr

/-- Observable trace of one dispatch call: its result, the retry delays slept
(in order, ms), and the number of request attempts issued. -/
structure DispatchTrace where
  result : DispatchResult
  delays : List Rat
  attempts : Nat
deriving DecidableEq, Repr

/-- The `while (true)` loop of `_request` (client.ts:198-232), consuming one
`AttemptOutcome` per iteration.  `mr` is `this.maxRetries`; the second
argument is the `attempt` counter. -/
def dispatchAux (mr : Nat) : Nat → List AttemptOutcome → DispatchTrace
  | _, [] => ⟨.incomplete, [], 0⟩
  | _, .transportErr te :: _ => ⟨.err (wrapTransport te), [], 1⟩
  | attempt, .response r :: rest =>
    if resOk r.status then
      match r.body with
      | .ok b => ⟨.ok b, [], 1⟩
      | .fail m => ⟨.err (.apiError ("Network error: " ++ m) (some 0) none), [], 1⟩
    else if retryableStatus r.status = true ∧ attempt < mr then
      let t := dispatchAux mr (attempt + 1) rest
      ⟨t.result, computeDelay r.retryAfter attempt :: t.delays, t.attempts + 1⟩
    else
      ⟨.err (handleError r.status (errFieldOf r.body) r.retryAfter r.requestId), [], 1⟩

/-- One dispatch call, starting at `attempt = 0` (client.ts:198). -/
def dispatch (mr : Nat) (outcomes : List AttemptOutcome) : DispatchTrace :=
  dispatchAux mr 0 outcomes

/-! ## Dispatcher theorems -/

theorem dispatchAux_attempts_le (outcomes : List AttemptOutcome) :
    ∀ mr a, (dispatchAux mr a outcomes).attempts ≤ (mr - a) + 1 := by
  induction outcomes with
  | nil => intro mr a; simp [dispatchAux]
  | cons o rest ih =>
    intro mr a
    cases o with
    | transportErr te => simp [dispatchAux]
    | response r =>
      cases hok : resOk r.status with
      | true =>
        cases hb : r.body <;> simp [dispatchAux, hok, hb]
      | false =>
        by_cases hr : retryableStatus r.status = true ∧ a < mr
        · obtain ⟨hr1, hr2⟩ := hr
          have := ih mr (a + 1)
          simp [dispatchAux, hok, hr1, hr2]
          omega
        · simp [dispatchAux, hok, hr]

theorem dispatchAux_ne_incomplete (outcomes : List AttemptOutcome) :
    ∀ mr a, (mr - a) + 1 ≤ outcomes.length →
      (dispatchAux mr a outcomes).result ≠ .incomplete := by
  induction outcomes with
  | nil => intro mr a h; simp at h
  | cons o rest ih =>
    intro mr a h
    cases o with
    | transportErr te => simp [dispatchAux]
    | response r =>
      cases hok : resOk r.status with
      | true =>
        cases hb : r.body <;> simp [dispatchAux, hok, hb]
      | false =>
        by_cases hr : retryableStatus r.status = true ∧ a < mr
        · obtain ⟨hr1, hr2⟩ := hr
          have hrest : (mr - (a + 1)) + 1 ≤ rest.length := by
            simp at h; omega
          have := ih mr (a + 1) hrest
          simpa [dispatchAux, hok, hr1, hr2] using this
        · simp [dispatchAux, hok, hr]

/-- C1: during one dispatch call, a non-2xx response is followed by a further
attempt exactly when its status is in RETRYABLE_STATUS = {429,500,502,503,504}
and the attempt counter is below maxRetries; in every other non-2xx case the
loop stops and raises the typed error selected by handleError. -/
theorem dispatch_retry_decision (mr a : Nat) (r : Resp) (rest : List AttemptOutcome)
    (hnok : resOk r.status = false) :
    ((retryableStatus r.status = true ∧ a < mr) →
      dispatchAux mr a (.response r :: rest)
        = ⟨(dispatchAux mr (a + 1) rest).result,
           computeDelay r.retryAfter a :: (dispatchAux mr (a + 1) rest).delays,
           (dispatchAux mr (a + 1) rest).attempts + 1⟩)
    ∧ (¬ (retryableStatus r.status = true ∧ a < mr) →
      dispatchAux mr a (.response r :: rest)
        = ⟨.err (handleError r.status (errFieldOf r.body) r.retryAfter r.requestId), [], 1⟩)
    ∧ (∀ s, retryableStatus s = true ↔ (s = 429 ∨ s = 500 ∨ s = 502 ∨ s = 503 ∨ s = 504)) := by
  refine ⟨fun hr => ?_, fun hr => ?_, fun s => ?_⟩
  · simp only [dispatchAux, hnok, Bool.false_eq_true, if_false, if_pos hr]
  · simp only [dispatchAux, hnok, Bool.false_eq_true, if_false, if_neg hr]
  · simp [retryableStatus, RETRYABLE_STATUS]

theorem dispatch_retry_decision_witness :
    resOk 500 = false
    ∧ (((retryableStatus 500 = true ∧ 0 < 2) →
        dispatchAux 2 0 [.response ⟨500, none, none, .ok ⟨.missing⟩⟩]
          = ⟨(dispatchAux 2 1 []).result,
             computeDelay none 0 :: (dispatchAux 2 1 []).delays,
             (dispatchAux 2 1 []).attempts + 1⟩)
      ∧ (¬ (retryableStatus 500 = true ∧ 0 < 2) →
        dispatchAux 2 0 [.response ⟨500, none, none, .ok ⟨.missing⟩⟩]
          = ⟨.err (handleError 500 (errFieldOf (.ok ⟨.missing⟩)) none none), [], 1⟩)
      ∧ (∀ s, retryableStatus s = true ↔ (s = 429 ∨ s = 500 ∨ s = 502 ∨ s = 503 ∨ s = 504))) :=
  ⟨by decide, dispatch_retry_decision 2 0 ⟨500, none, none, .ok ⟨.missing⟩⟩ [] (by decide)⟩

/-- C2: each retry sleeps the computed delay: the parsed retry-after header
value times 1000 when present, otherwise 500 * 2 ^ attempt ms, so attempt 0
sleeps 500 ms and attempt 1 sleeps 1000 ms when no header is present. -/
theorem dispatch_backoff_delay (mr a : Nat) (r : Resp) (rest : List AttemptOutcome)
    (hnok : resOk r.status = false) (hr : retryableStatus r.status = true) (ha : a < mr) :
    (dispatchAux mr a (.response r :: rest)).delays
      = computeDelay r.retryAfter a :: (dispatchAux mr (a + 1) rest).delays
    ∧ (∀ q, computeDelay (some q) a = q * 1000)
    ∧ (∀ n, computeDelay none n = 500 * 2 ^ n)
    ∧ computeDelay none 0 = 500 ∧ computeDelay none 1 = 1000 := by
  refine ⟨?_, fun q => rfl, fun n => rfl, by norm_num [computeDelay], by norm_num [computeDelay]⟩
  simp only [dispatchAux, hnok, Bool.false_eq_true, if_false, if_pos (And.intro hr ha)]

theorem dispatch_backoff_delay_witness :
    resOk 429 = false ∧ retryableStatus 429 = true ∧ 0 < 2
    ∧ ((dispatchAux 2 0 [.response ⟨429, none, none, .ok ⟨.missing⟩⟩]).delays
        = computeDelay none 0 :: (dispatchAux 2 1 []).delays
      ∧ (∀ q, computeDelay (some q) 0 = q * 1000)
      ∧ (∀ n, computeDelay none n = 500 * 2 ^ n)
      ∧ computeDelay none 0 = 500 ∧ computeDelay none 1 = 1000) :=
  ⟨by decide, by decide, by decide,
   dispatch_backoff_delay 2 0 ⟨429, none, none, .ok ⟨.missing⟩⟩ [] (by decide) (by decide) (by decide)⟩

/-- C3: with maxRetries = N, one dispatch call issues at most N + 1 attempts,
and when at least N + 1 attempt outcomes are available the loop always
finishes with a returned value or a raised error (never runs out). -/
theorem dispatch_attempts_bounded (mr : Nat) (outcomes : List AttemptOutcome) :
    (dispatch mr outcomes).attempts ≤ mr + 1
    ∧ (mr + 1 ≤ outcomes.length → (dispatch mr outcomes).result ≠ .incomplete) := by
  constructor
  · have := dispatchAux_attempts_le outcomes mr 0
    simpa [dispatch] using this
  · intro h
    have := dispatchAux_ne_incomplete outcomes mr 0 (by simpa using h)
    simpa [dispatch] using this

theorem dispatch_attempts_bounded_witness :
    (1 + 1 ≤ ([.response ⟨500, none, none, .ok ⟨.missing⟩⟩,
               .response ⟨500, none, none, .ok ⟨.missing⟩⟩] : List AttemptOutcome).length)
    ∧ (dispatch 1 [.response ⟨500, none, none, .ok ⟨.missing⟩⟩,
                   .response ⟨500, none, none, .ok ⟨.missing⟩⟩]).attempts ≤ 1 + 1
    ∧ (dispatch 1 [.response ⟨500, none, none, .ok ⟨.missing⟩⟩,
                   .response ⟨500, none, none, .ok ⟨.missing⟩⟩]).result ≠ .incomplete :=
  ⟨by decide,
   (dispatch_attempts_bounded 1 _).1,
   (dispatch_attempts_bounded 1 _).2 (by decide)⟩

/-- C4: a non-2xx response that is not retried raises the typed error chosen
by handleError: 401 → authentication, 429 → rate limit carrying the parsed
retry-after seconds, 402 → insufficient credits, anything else → generic API
error carrying the status; the message is the nested error.message, or the
error field itself when it is a plain string, and defaults to "Request
failed" when absent or when the body fails to parse (empty object). -/
theorem dispatch_error_classification (mr a : Nat) (r : Resp) (rest : List AttemptOutcome)
    (hnok : resOk r.status = false)
    (hnr : ¬ (retryableStatus r.status = true ∧ a < mr)) :
    dispatchAux mr a (.response r :: rest)
      = ⟨.err (handleError r.status (errFieldOf r.body) r.retryAfter r.requestId), [], 1⟩
    ∧ (∀ f ra rid, handleError 401 f ra rid = .authentication (extractMsg f) rid)
    ∧ (∀ f ra rid, handleError 429 f ra rid = .rateLimit (extractMsg f) ra rid)
    ∧ (∀ f ra rid, handleError 402 f ra rid = .insufficientCredits (extractMsg f) rid)
    ∧ (∀ s f ra rid, s ≠ 401 → s ≠ 429 → s ≠ 402 →
        handleError s f ra rid = .apiError (extractMsg f) (some s) rid)
    ∧ (∀ m, extractMsg (.objMsg (some m)) = m)
    ∧ (∀ s, extractMsg (.plainStr s) = s)
    ∧ extractMsg .missing = "Request failed"
    ∧ extractMsg (.objMsg none) = "Request failed"
    ∧ (∀ m, errFieldOf (.fail m) = .missing) := by
  refine ⟨?_, fun f ra rid => rfl, fun f ra rid => rfl, fun f ra rid => rfl,
          fun s f ra rid h1 h2 h3 => ?_, fun m => rfl, fun s => rfl, rfl, rfl, fun m => rfl⟩
  · simp only [dispatchAux, hnok, Bool.false_eq_true, if_false, if_neg hnr]
  · simp [handleError, h1, h2, h3]

theorem dispatch_error_classification_witness :
    resOk 401 = false
    ∧ ¬ (retryableStatus 401 = true ∧ 0 < 2)
    ∧ (dispatchAux 2 0 [.response ⟨401, none, some "req-1", .ok ⟨.objMsg (some "bad key")⟩⟩]
        = ⟨.err (handleError 401 (errFieldOf (.ok ⟨.objMsg (some "bad key")⟩)) none (some "req-1")),
           [], 1⟩
      ∧ (∀ f ra rid, handleError 401 f ra rid = .authentication (extractMsg f) rid)
      ∧ (∀ f ra rid, handleError 429 f ra rid = .rateLimit (extractMsg f) ra rid)
      ∧ (∀ f ra rid, handleError 402 f ra rid = .insufficientCredits (extractMsg f) rid)
      ∧ (∀ s f ra rid, s ≠ 401 → s ≠ 429 → s ≠ 402 →
          handleError s f ra rid = .apiError (extractMsg f) (some s) rid)
      ∧ (∀ m, extractMsg (.objMsg (some m)) = m)
      ∧ (∀ s, extractMsg (.plainStr s) = s)
      ∧ extractMsg .missing = "Request failed"
      ∧ extractMsg (.objMsg none) = "Request failed"
      ∧ (∀ m, errFieldOf (.fail m) = .missing)) :=
  ⟨by decide, by decide,
   dispatch_error_classification 2 0 ⟨401, none, some "req-1", .ok ⟨.objMsg (some "bad key")⟩⟩ []
     (by decide) (by decide)⟩

/-- C5: a transport failure ends the dispatch call at once: an already-typed
library error propagates unchanged, the timeout abort becomes a generic API
failure with status 408 and message "Request timed out", and any other
transport error becomes a generic API failure with status 0 embedding the
underlying error description. -/
theorem dispatch_transport_failure (mr a : Nat) (te : TransportErr)
    (rest : List AttemptOutcome) :
    dispatchAux mr a (.transportErr te :: rest) = ⟨.err (wrapTransport te), [], 1⟩
    ∧ wrapTransport .abort = .apiError "Request timed out" (some 408) none
    ∧ (∀ m, wrapTransport (.other m) = .apiError ("Network error: " ++ m) (some 0) none)
    ∧ (∀ e, wrapTransport (.typed e) = e) :=
  ⟨rfl, rfl, fun _ => rfl, fun _ => rfl⟩

/-- C10: a 2xx response whose body fails to parse as JSON does not return; it
raises a generic API failure with status 0 whose message begins with
"Network error:", i.e. it is classified as a transport-level failure. -/
theorem dispatch_success_parse_failure (mr a : Nat) (r : Resp) (rest : List AttemptOutcome)
    (m : String) (hok : resOk r.status = true) (hb : r.body = .fail m) :
    dispatchAux mr a (.response r :: rest)
      = ⟨.err (.apiError ("Network error: " ++ m) (some 0) none), [], 1⟩
    ∧ ∃ s, "Network error: " ++ m = "Network error:" ++ s := by
  refine ⟨by simp [dispatchAux, hok, hb], ⟨" " ++ m, ?_⟩⟩
  have h : "Network error: " = "Network error:" ++ " " := rfl
  rw [h, String.append_assoc]

theorem dispatch_success_parse_failure_witness :
    resOk 200 = true
    ∧ (Resp.mk 200 none none (.fail "Unexpected token")).body = .fail "Unexpected token"
    ∧ (dispatchAux 2 0 [.response ⟨200, none, none, .fail "Unexpected token"⟩]
        = ⟨.err (.apiError ("Network error: " ++ "Unexpected token") (some 0) none), [], 1⟩
      ∧ ∃ s, "Network error: " ++ "Unexpected token" = "Network error:" ++ s) :=
  ⟨by decide, rfl,
   dispatch_success_parse_failure 2 0 ⟨200, none, none, .fail "Unexpected token"⟩ []
     "Unexpected token" (by decide) rfl⟩

/-! ## SSE event decoder (src/streaming.ts, `Stream[Symbol.asyncIterator]`)

Text is modelled as `List Char`; the host `JSON.parse` is abstracted as a
parameter `parse : List Char → Option α` (`none` = SyntaxError). -/

/-- `MAX_SSE_BUFFER = 10 * 1024 * 1024` (streaming.ts:4). -/
def MAX_SSE_BUFFER : Nat := 10 * 1024 * 1024

/-- Whitespace removed by the host `String.prototype.trim`: the ECMAScript
WhiteSpace set (TAB, VT, FF, SP, NBSP, ZWNBSP, and the Unicode
Space_Separator characters) together with the LineTerminator set
(LF, CR, LS, PS). -/
def isJsWS (c : Char) : Bool :=
  c = ' ' || c = '\t' || c = '\n' || c = '\r' || c = '\x0b' || c = '\x0c'
    || c = '\u00A0' || c = '\u1680'
    || c = '\u2000' || c = '\u2001' || c = '\u2002' || c = '\u2003'
    || c = '\u2004' || c = '\u2005' || c = '\u2006' || c = '\u2007'
    || c = '\u2008' || c = '\u2009' || c = '\u200A'
    || c = '\u2028' || c = '\u2029' || c = '\u202F' || c = '\u205F'
    || c = '\u3000' || c = '\uFEFF'

/-- `line.slice(5).trim()`'s trim step. -/
def trim (l : List Char) : List Char :=
  ((l.dropWhile isJsWS).reverse.dropWhile isJsWS).reverse

/-- `rawEvent.split('\n')` (streaming.ts:76). -/
def splitLines : List Char → List (List Char)
  | [] => [[]]
  | c :: rest =>
    if c = '\n' then [] :: splitLines rest
    else (c :: (splitLines rest).headD []) :: (splitLines rest).tail

/-- `line.startsWith('data:')` (streaming.ts:77). -/
def startsWithData : List Char → Bool
  | 'd' :: 'a' :: 't' :: 'a' :: ':' :: _ => true
  | _ => false

/-- The `[DONE]` termination sentinel (streaming.ts:79). -/
def doneChars : List Char := ['[', 'D', 'O', 'N', 'E', ']']

/-- `buffer.indexOf('\n\n')` (streaming.ts:72): index of the first frame
delimiter, `none` when there is no complete frame. -/
def findDelim : List Char → Option Nat
  | c :: d :: rest =>
    if c = '\n' ∧ d = '\n' then some 0
    else (findDelim (d :: rest)).map (· + 1)
  | _ => none

/-- The `for (const line of rawEvent.split('\n'))` body (streaming.ts:76-85):
events emitted from one frame's lines, and whether the `[DONE]` sentinel was
reached (which returns from the whole generator). -/
def frameEvents (parse : List Char → Option α) : List (List Char) → List α × Bool
  | [] => ([], false)
  | line :: rest =>
    if startsWithData line then
      let data := trim (line.drop 5)
      if data = doneChars then ([], true)
      else
        match parse data with
        | some v =>
          let p := frameEvents parse rest
          (v :: p.1, p.2)
        | none => frameEvents parse rest
    else frameEvents parse rest

theorem findDelim_le {l : List Char} {i : Nat} (h : findDelim l = some i) :
    i + 2 ≤ l.length := by
  induction l generalizing i with
  | nil => simp [findDelim] at h
  | cons c t ih =>
    cases t with
    | nil => simp [findDelim] at h
    | cons d rest =>
      by_cases hnl : c = '\n' ∧ d = '\n'
      · simp only [findDelim, if_pos hnl, Option.some.injEq] at h
        simp only [List.length_cons]
        omega
      · simp only [findDelim, if_neg hnl, Option.map_eq_some'] at h
        obtain ⟨j, hj, rfl⟩ := h
        have := ih hj
        simp at this ⊢
        omega

/-- The inner `while ((boundary = buffer.indexOf('\n\n')) !== -1)` loop
(streaming.ts:71-86): extracts and processes complete frames, returning the
events emitted, whether `[DONE]` was reached, and the remaining buffer. -/
def drainBuffer (parse : List Char → Option α) (buffer : List Char) :
    List α × Bool × List Char :=
  match h : findDelim buffer with
  | none => ([], false, buffer)
  | some i =>
    let p := frameEvents parse (splitLines (buffer.take i))
    if p.2 then (p.1, true, buffer.drop (i + 2))
    else
      let q := drainBuffer parse (buffer.drop (i + 2))
      (p.1 ++ q.1, q.2.1, q.2.2)
termination_by buffer.length
decreasing_by
  simp only [List.length_drop]
  have := findDelim_le h
  omega

/-- How an iteration of the stream ends. -/
inductive StreamEnd where
  | done
  | eof
  | errored (e : WLError)
deriving DecidableEq, Repr

/-- Observable outcome of iterating one stream: the events yielded in order,
and how the iteration ended. -/
structure StreamTrace (α : Type) where
  events : List α
  ending : StreamEnd
deriving DecidableEq, Repr

/-- The buffer-overflow error (streaming.ts:67). -/
def sseOverflowError : WLError :=
  .apiError "SSE buffer overflow: server sent too much data without delimiters" (some 0) none

/-- The `while (true)` read loop (streaming.ts:62-87): one chunk is appended
per read, the 10 MiB bound is checked, then complete frames are drained. -/
def runDecoder (parse : List Char → Option α) : List Char → List (List Char) → StreamTrace α
  | _, [] => ⟨[], .eof⟩
  | buffer, chunk :: rest =>
    let buf := buffer ++ chunk
    if MAX_SSE_BUFFER < buf.length then ⟨[], .errored sseOverflowError⟩
    else
      match drainBuffer parse buf with
      | (es, true, _) => ⟨es, .done⟩
      | (es, false, buf2) =>
        let t := runDecoder parse buf2 rest
        ⟨es ++ t.events, t.ending⟩

/-- The response a streaming connection produced: its status, the result of
`res.text()` on the error path (`none` models `text()` throwing, which the
code turns into the empty string), and the decoded text chunks the reader
yields on the success path. -/
structure StreamResp where
  status : Nat
  text : Option String
  chunks : List (List Char)

/-- The whole iterator body after `fetch` resolved (streaming.ts:51-91):
a non-2xx status raises a base `WaterlightError` carrying the status and the
response text; otherwise the SSE decode loop runs on the body's chunks. -/
def streamIterate (parse : List Char → Option α) (r : StreamResp) : StreamTrace α :=
  if resOk r.status then runDecoder parse [] r.chunks
  else
    ⟨[], .errored (.waterlight
        ("Streaming error: " ++ toString r.status ++ " " ++ r.text.getD "")
        (some r.status) none)⟩

theorem drainBuffer_none {α : Type} (parse : List Char → Option α) (buffer : List Char)
    (h : findDelim buffer = none) : drainBuffer parse buffer = ([], false, buffer) := by
  rw [drainBuffer]
  split
  · rfl
  · next i heq => rw [h] at heq; cases heq

theorem drainBuffer_some {α : Type} (parse : List Char → Option α) (buffer : List Char)
    (i : Nat) (h : findDelim buffer = some i) :
    drainBuffer parse buffer
      = (let p := frameEvents parse (splitLines (buffer.take i))
         if p.2 then (p.1, true, buffer.drop (i + 2))
         else
           let q := drainBuffer parse (buffer.drop (i + 2))
           (p.1 ++ q.1, q.2.1, q.2.2)) := by
  rw [drainBuffer]
  split
  · next heq => rw [h] at heq; cases heq
  · next j heq =>
    rw [h] at heq
    cases heq
    rfl

/-- No newline occurs in `l` (a single-line text segment). -/
def noNL (l : List Char) : Prop := ∀ c ∈ l, c ≠ '\n'

instance (l : List Char) : Decidable (noNL l) := by
  unfold noNL; infer_instance

theorem findDelim_cons_ne {c : Char} (hc : c ≠ '\n') (l : List Char) :
    findDelim (c :: l) = (findDelim l).map (· + 1) := by
  cases l with
  | nil => simp [findDelim]
  | cons d t =>
    have : ¬ (c = '\n' ∧ d = '\n') := fun h => hc h.1
    simp [findDelim, this]

theorem findDelim_nl_cons {c : Char} (hc : c ≠ '\n') (l : List Char) :
    findDelim ('\n' :: c :: l) = (findDelim (c :: l)).map (· + 1) := by
  simp [findDelim, hc]

theorem findDelim_append {a : List Char} (ha : noNL a) (b : List Char) :
    findDelim (a ++ b) = (findDelim b).map (a.length + ·) := by
  induction a with
  | nil =>
    cases h : findDelim b <;> simp [h]
  | cons c a' ih =>
    have hc : c ≠ '\n' := ha c (List.mem_cons_self c a')
    have ha' : noNL a' := fun x hx => ha x (List.mem_cons_of_mem c hx)
    rw [List.cons_append, findDelim_cons_ne hc, ih ha']
    cases h : findDelim b with
    | none => simp [h]
    | some v => simp [h]; omega

theorem findDelim_noNL {a : List Char} (ha : noNL a) : findDelim a = none := by
  have := findDelim_append ha []
  simpa using this

theorem splitLines_append_nl {a : List Char} (ha : noNL a) (r : List Char) :
    splitLines (a ++ '\n' :: r) = a :: splitLines r := by
  induction a with
  | nil => simp [splitLines]
  | cons c a' ih =>
    have hc : c ≠ '\n' := ha c (List.mem_cons_self c a')
    have ha' : noNL a' := fun x hx => ha x (List.mem_cons_of_mem c hx)
    rw [List.cons_append]
    simp [splitLines, hc, ih ha']

theorem splitLines_noNL {a : List Char} (ha : noNL a) : splitLines a = [a] := by
  induction a with
  | nil => simp [splitLines]
  | cons c a' ih =>
    have hc : c ≠ '\n' := ha c (List.mem_cons_self c a')
    have ha' : noNL a' := fun x hx => ha x (List.mem_cons_of_mem c hx)
    simp [splitLines, hc, ih ha']

theorem drop_append_delim (a r : List Char) :
    (a ++ '\n' :: '\n' :: r).drop (a.length + 2) = r := by
  have h1 : a ++ '\n' :: '\n' :: r = (a ++ ['\n', '\n']) ++ r := by simp
  have h2 : (a ++ ['\n', '\n']).length = a.length + 2 := by simp
  rw [h1, ← h2, List.drop_left]

theorem take_append_delim (a r : List Char) :
    (a ++ '\n' :: '\n' :: r).take a.length = a := by
  have h1 : a ++ '\n' :: '\n' :: r = a ++ ('\n' :: '\n' :: r) := rfl
  rw [h1, List.take_left]

/-- Draining a buffer that starts with one delimiter-free complete frame
processes that frame, then (unless the sentinel fired) continues with the
rest. -/
theorem drainBuffer_frame {α : Type} (parse : List Char → Option α) (f r : List Char)
    (hfd : findDelim (f ++ '\n' :: '\n' :: r) = some f.length) :
    drainBuffer parse (f ++ '\n' :: '\n' :: r)
      = (let p := frameEvents parse (splitLines f)
         if p.2 then (p.1, true, r)
         else
           let q := drainBuffer parse r
           (p.1 ++ q.1, q.2.1, q.2.2)) := by
  rw [drainBuffer_some parse _ f.length hfd]
  rw [take_append_delim, drop_append_delim]

/-- A `data:`-prefixed SSE line with a single space after the prefix. -/
def dataLine (p : List Char) : List Char := 'd' :: 'a' :: 't' :: 'a' :: ':' :: ' ' :: p

/-- The payload the decoder extracts from `dataLine p`:
`line.slice(5).trim()` (streaming.ts:78). -/
def stripped (p : List Char) : List Char := trim (List.drop 5 (dataLine p))

/-- The characters of the JSON text of the event in the spec's example. -/
def jsonA1 : List Char := ['\x7b', '"', 'a', '"', ':', '1', '\x7d']

/-- The spec's example SSE input: one data frame with the event, then a
frame carrying the `[DONE]` sentinel. -/
def c6Input : List Char :=
  dataLine jsonA1 ++ '\n' :: '\n' :: (dataLine doneChars ++ ['\n', '\n'])

/-- C6: on the spec's example input "data: \x7b"a":1\x7d\n\ndata: [DONE]\n\n" —
followed by arbitrary extra bytes in the same read and arbitrary further
chunks — the decoder yields exactly the one decoded event and terminates via
the sentinel, discarding everything after `[DONE]`. -/
theorem stream_done_sentinel {α : Type} (parse : List Char → Option α) (v : α)
    (extra : List Char) (rest : List (List Char))
    (hp : parse jsonA1 = some v)
    (hlen : (c6Input ++ extra).length ≤ MAX_SSE_BUFFER) :
    streamIterate parse ⟨200, none, (c6Input ++ extra) :: rest⟩ = ⟨[v], .done⟩ := by
  have h200 : resOk 200 = true := by decide
  have hnd1 : noNL (dataLine jsonA1) := by decide
  have hnd2 : noNL (dataLine doneChars) := by decide
  have hb : c6Input ++ extra
      = dataLine jsonA1 ++ '\n' :: '\n' :: (dataLine doneChars ++ '\n' :: '\n' :: extra) := by
    simp [c6Input]
  have hfd1 : findDelim (dataLine jsonA1 ++ '\n' :: '\n' :: (dataLine doneChars ++ '\n' :: '\n' :: extra))
      = some (dataLine jsonA1).length := by
    rw [findDelim_append hnd1]
    simp [findDelim]
  have hfd2 : findDelim (dataLine doneChars ++ '\n' :: '\n' :: extra)
      = some (dataLine doneChars).length := by
    rw [findDelim_append hnd2]
    simp [findDelim]
  have hsw1 : startsWithData (dataLine jsonA1) = true := by decide
  have hstrip1 : trim (List.drop 5 (dataLine jsonA1)) = jsonA1 := by decide
  have hne1 : jsonA1 ≠ doneChars := by decide
  have hfe1 : frameEvents parse [dataLine jsonA1] = ([v], false) := by
    simp [frameEvents, hsw1, hstrip1, hne1, hp]
  have hsw2 : startsWithData (dataLine doneChars) = true := by decide
  have hstrip2 : trim (List.drop 5 (dataLine doneChars)) = doneChars := by decide
  have hfe2 : frameEvents parse [dataLine doneChars] = ([], true) := by
    simp [frameEvents, hsw2, hstrip2]
  have hd2 : drainBuffer parse (dataLine doneChars ++ '\n' :: '\n' :: extra) = ([], true, extra) := by
    rw [drainBuffer_frame parse _ _ hfd2, splitLines_noNL hnd2, hfe2]
    simp
  have hd1 : drainBuffer parse (c6Input ++ extra) = ([v], true, extra) := by
    rw [hb, drainBuffer_frame parse _ _ hfd1, splitLines_noNL hnd1, hfe1]
    simp [hd2]
  have hrun : runDecoder parse [] ((c6Input ++ extra) :: rest) = ⟨[v], .done⟩ := by
    have hnlt : ¬ MAX_SSE_BUFFER < (c6Input ++ extra).length := Nat.not_lt.mpr hlen
    simp only [runDecoder, List.nil_append]
    rw [hd1, if_neg hnlt]
  simp only [streamIterate, h200, if_true]
  exact hrun

theorem startsWithData_dataLine (p : List Char) : startsWithData (dataLine p) = true := rfl

theorem noNL_dataLine {p : List Char} (hp : noNL p) : noNL (dataLine p) := by
  intro c hc
  simp only [dataLine, List.mem_cons] at hc
  rcases hc with rfl | rfl | rfl | rfl | rfl | rfl | h
  · decide
  · decide
  · decide
  · decide
  · decide
  · decide
  · exact hp c h

/-- Scanning for the frame delimiter skips a newline-free line, its
terminating newline, and the `data:` head of the following line. -/
theorem findDelim_data_frame_step {a : List Char} (ha : noNL a) (p r : List Char) :
    findDelim (a ++ '\n' :: (dataLine p ++ r))
      = (findDelim (dataLine p ++ r)).map (a.length + 1 + ·) := by
  have hx : dataLine p ++ r = 'd' :: ('a' :: 't' :: 'a' :: ':' :: ' ' :: (p ++ r)) := by
    simp [dataLine]
  rw [findDelim_append ha, hx, findDelim_nl_cons (by decide), ← hx]
  cases h : findDelim (dataLine p ++ r) with
  | none => simp [h]
  | some v => simp [h]; omega

/-- One SSE frame holding three `data:` lines, followed by the frame
delimiter: the shape of the C7 scenario. -/
def c7Chunk (A B C : List Char) : List Char :=
  dataLine A ++ '\n' :: (dataLine B ++ ('\n' :: (dataLine C ++ ['\n', '\n'])))

/-- C7: a frame holding a data line whose stripped payload fails to decode
between two well-formed data lines yields exactly the two well-formed events
in server order; the malformed line is skipped and the stream is not
aborted (it ends normally at end of data). -/
theorem stream_skips_malformed {α : Type} (parse : List Char → Option α)
    (A B C : List Char) (v1 v2 : α)
    (hA : noNL A) (hB : noNL B) (hC : noNL C)
    (hpA : parse (stripped A) = some v1) (hdA : stripped A ≠ doneChars)
    (hpB : parse (stripped B) = none) (hdB : stripped B ≠ doneChars)
    (hpC : parse (stripped C) = some v2) (hdC : stripped C ≠ doneChars)
    (hlen : (c7Chunk A B C).length ≤ MAX_SSE_BUFFER) :
    streamIterate parse ⟨200, none, [c7Chunk A B C]⟩ = ⟨[v1, v2], .eof⟩ := by
  have h200 : resOk 200 = true := by decide
  have hchunk : c7Chunk A B C
      = (dataLine A ++ '\n' :: (dataLine B ++ '\n' :: dataLine C)) ++ '\n' :: '\n' :: ([] : List Char) := by
    simp [c7Chunk]
  have hfd : findDelim ((dataLine A ++ '\n' :: (dataLine B ++ '\n' :: dataLine C)) ++ '\n' :: '\n' :: ([] : List Char))
      = some (dataLine A ++ '\n' :: (dataLine B ++ '\n' :: dataLine C)).length := by
    rw [← hchunk]
    rw [show c7Chunk A B C
        = dataLine A ++ '\n' :: (dataLine B ++ ('\n' :: (dataLine C ++ ['\n', '\n']))) from rfl]
    rw [findDelim_data_frame_step (noNL_dataLine hA),
        findDelim_data_frame_step (noNL_dataLine hB),
        findDelim_append (noNL_dataLine hC)]
    have h2 : findDelim ['\n', '\n'] = some 0 := by decide
    rw [h2]
    simp [dataLine]
    omega
  have hsplit : splitLines (dataLine A ++ '\n' :: (dataLine B ++ '\n' :: dataLine C))
      = [dataLine A, dataLine B, dataLine C] := by
    rw [splitLines_append_nl (noNL_dataLine hA), splitLines_append_nl (noNL_dataLine hB),
        splitLines_noNL (noNL_dataLine hC)]
  have hstr : ∀ p, trim (List.drop 5 (dataLine p)) = stripped p := fun _ => rfl
  have hfe : frameEvents parse [dataLine A, dataLine B, dataLine C] = ([v1, v2], false) := by
    simp [frameEvents, startsWithData_dataLine, hstr, hdA, hdB, hdC, hpA, hpB, hpC]
  have hdr : drainBuffer parse (c7Chunk A B C) = ([v1, v2], false, []) := by
    rw [hchunk, drainBuffer_frame parse _ _ hfd, hsplit, hfe]
    rw [drainBuffer_none parse [] rfl]
    simp
  have hnlt : ¬ MAX_SSE_BUFFER < (c7Chunk A B C).length := Nat.not_lt.mpr hlen
  have hrun : runDecoder parse [] [c7Chunk A B C] = ⟨[v1, v2], .eof⟩ := by
    simp only [runDecoder, List.nil_append]
    rw [hdr, if_neg hnlt]
    simp [runDecoder]
  simp only [streamIterate, h200, if_true]
  exact hrun

/-- Draining frames never grows the buffer: the remainder is at most as long
as the input buffer. -/
theorem drainBuffer_rest_le {α : Type} (parse : List Char → Option α) (b : List Char) :
    ((drainBuffer parse b).2.2).length ≤ b.length := by
  have main : ∀ n (b : List Char), b.length ≤ n →
      ((drainBuffer parse b).2.2).length ≤ b.length := by
    intro n
    induction n with
    | zero =>
      intro b hb
      have hbn : b = [] := List.eq_nil_of_length_eq_zero (Nat.le_zero.mp hb)
      subst hbn
      rw [drainBuffer_none parse [] rfl]
    | succ n ih =>
      intro b hb
      cases h : findDelim b with
      | none => rw [drainBuffer_none parse b h]
      | some i =>
        have hi := findDelim_le h
        rw [drainBuffer_some parse b i h]
        by_cases hp : (frameEvents parse (splitLines (b.take i))).2 = true
        · simp only [hp, if_true]
          simp
        · simp only [hp, if_false]
          have hdrop : (b.drop (i + 2)).length ≤ n := by
            simp only [List.length_drop]
            omega
          have := ih (b.drop (i + 2)) hdrop
          simp only [List.length_drop] at this ⊢
          simp
          omega
  exact main b.length b le_rfl

/-- C8: when a read makes the buffered text exceed the 10 MiB bound without
containing a frame delimiter, the decoder raises the status-0 buffer-overflow
API failure immediately — no events are emitted and no further chunk is
read — and frame draining never grows the buffer, so the buffer only ever
exceeds the bound at the raising read itself. -/
theorem stream_buffer_overflow {α : Type} (parse : List Char → Option α)
    (buffer chunk : List Char) (rest : List (List Char))
    (_hnd : findDelim (buffer ++ chunk) = none)
    (hlen : MAX_SSE_BUFFER < (buffer ++ chunk).length) :
    runDecoder parse buffer (chunk :: rest) = ⟨[], .errored sseOverflowError⟩
    ∧ sseOverflowError
        = .apiError "SSE buffer overflow: server sent too much data without delimiters" (some 0) none
    ∧ (∀ b : List Char, ((drainBuffer parse b).2.2).length ≤ b.length) := by
  refine ⟨?_, rfl, drainBuffer_rest_le parse⟩
  simp only [runDecoder]
  rw [if_pos hlen]

theorem stream_buffer_overflow_witness :
    findDelim (([] : List Char) ++ List.replicate (MAX_SSE_BUFFER + 1) 'a') = none
    ∧ MAX_SSE_BUFFER < (([] : List Char) ++ List.replicate (MAX_SSE_BUFFER + 1) 'a').length
    ∧ (runDecoder (fun _ : List Char => (none : Option Nat)) []
          [List.replicate (MAX_SSE_BUFFER + 1) 'a']
        = ⟨[], .errored sseOverflowError⟩
      ∧ sseOverflowError
          = .apiError "SSE buffer overflow: server sent too much data without delimiters" (some 0) none
      ∧ (∀ b : List Char,
          ((drainBuffer (fun _ : List Char => (none : Option Nat)) b).2.2).length ≤ b.length)) := by
  have h1 : findDelim (([] : List Char) ++ List.replicate (MAX_SSE_BUFFER + 1) 'a') = none := by
    apply findDelim_noNL
    intro c hc
    simp only [List.nil_append] at hc
    rw [List.eq_of_mem_replicate hc]
    decide
  have h2 : MAX_SSE_BUFFER < (([] : List Char) ++ List.replicate (MAX_SSE_BUFFER + 1) 'a').length := by
    simp
  exact ⟨h1, h2, stream_buffer_overflow (fun _ : List Char => (none : Option Nat)) [] _ [] h1 h2⟩

/-- C9: a non-2xx streaming response yields no events and raises the base
`WaterlightError` carrying that status and the response text, a kind that the
structured status mapping `handleError` of the Dispatcher never produces. -/
theorem stream_connect_error_generic {α : Type} (parse : List Char → Option α)
    (r : StreamResp) (hnok : resOk r.status = false) :
    streamIterate parse r
      = ⟨[], .errored (.waterlight
          ("Streaming error: " ++ toString r.status ++ " " ++ r.text.getD "")
          (some r.status) none)⟩
    ∧ (∀ msg f ra rid, WLError.waterlight msg (some r.status) none ≠ handleError r.status f ra rid) := by
  constructor
  · simp only [streamIterate, hnok, Bool.false_eq_true, if_false]
  · intro msg f ra rid
    unfold handleError
    split_ifs <;> simp

theorem stream_connect_error_generic_witness :
    resOk 500 = false
    ∧ (streamIterate (fun _ : List Char => (none : Option Nat)) ⟨500, some "boom", []⟩
        = ⟨[], .errored (.waterlight
            ("Streaming error: " ++ toString 500 ++ " " ++ (some "boom").getD "")
            (some 500) none)⟩
      ∧ (∀ msg f ra rid, WLError.waterlight msg (some 500) none ≠ handleError 500 f ra rid)) :=
  ⟨by decide,
   stream_connect_error_generic (fun _ : List Char => (none : Option Nat)) ⟨500, some "boom", []⟩
     (by decide)⟩

theorem stream_done_sentinel_witness :
    ((fun l : List Char => if l = jsonA1 then some 1 else none) jsonA1 = some 1)
    ∧ (c6Input ++ ([] : List Char)).length ≤ MAX_SSE_BUFFER
    ∧ streamIterate (fun l : List Char => if l = jsonA1 then some 1 else none)
        ⟨200, none, [c6Input ++ ([] : List Char)]⟩ = ⟨[1], .done⟩ :=
  ⟨by decide, by decide,
   stream_done_sentinel (fun l : List Char => if l = jsonA1 then some 1 else none) 1 [] []
     (by decide) (by decide)⟩

theorem stream_skips_malformed_witness :
    noNL jsonA1 ∧ noNL ['o', 'o', 'p', 's'] ∧ noNL ['2']
    ∧ ((fun l : List Char => if l = jsonA1 then some 1 else if l = ['2'] then some 2 else none)
        (stripped jsonA1) = some 1)
    ∧ stripped jsonA1 ≠ doneChars
    ∧ ((fun l : List Char => if l = jsonA1 then some 1 else if l = ['2'] then some 2 else none)
        (stripped ['o', 'o', 'p', 's']) = none)
    ∧ stripped ['o', 'o', 'p', 's'] ≠ doneChars
    ∧ ((fun l : List Char => if l = jsonA1 then some 1 else if l = ['2'] then some 2 else none)
        (stripped ['2']) = some 2)
    ∧ stripped ['2'] ≠ doneChars
    ∧ (c7Chunk jsonA1 ['o', 'o', 'p', 's'] ['2']).length ≤ MAX_SSE_BUFFER
    ∧ streamIterate (fun l : List Char => if l = jsonA1 then some 1 else if l = ['2'] then some 2 else none)
        ⟨200, none, [c7Chunk jsonA1 ['o', 'o', 'p', 's'] ['2']]⟩ = ⟨[1, 2], .eof⟩ :=
  ⟨by decide, by decide, by decide, by decide, by decide, by decide, by decide, by decide,
   by decide, by decide,
   stream_skips_malformed
     (fun l : List Char => if l = jsonA1 then some 1 else if l = ['2'] then some 2 else none)
     jsonA1 ['o', 'o', 'p', 's'] ['2'] 1 2
     (by decide) (by decide) (by decide) (by decide) (by decide) (by decide) (by decide)
     (by decide) (by decide) (by decide)⟩
